import Mathlib

/-!
Shallow embedding of the tags search-index processor
(`onIndexSetup` / `onIndexUpdate` and their helpers).

Timestamps are modelled as `Nat`; Prisma rows are Lean structures; the
`findMany` calls become pure functions over an explicit database value;
the sequential effects of a run (queue read, page fetches, document
submissions, the final wait) are recorded as an explicit event list.
JavaScript objects whose fields may be absent (the result of spreading
`tagRecord.metrics[0] || {}`) are modelled with `Option` fields, where
`none` means the field is absent from the object.
-/

/-- The Prisma `MetricTimeframe` enum. -/
inductive MetricTimeframe where
  | Day
  | Week
  | Month
  | Year
  | AllTime
deriving DecidableEq, Repr

/-- One row of the `tagMetric` relation: a timeframe together with the six
counters selected by the nested `select` of `onIndexUpdate`. -/
structure TagMetric where
  timeframe : MetricTimeframe
  postCount : Nat
  articleCount : Nat
  followerCount : Nat
  modelCount : Nat
  imageCount : Nat
  hiddenCount : Nat
deriving DecidableEq, Repr

/-- A row of the `tag` relation, with the columns read or filtered by
`onIndexUpdate`: the selected columns (`id`, `name`, `nsfw`, `isCategory`,
`metrics`) and the columns used by the `where` clause (`unlisted`,
`adminOnly`, `createdAt`, `updatedAt`). -/
structure Tag where
  id : Nat
  name : String
  nsfw : Bool
  isCategory : Bool
  unlisted : Bool
  adminOnly : Bool
  createdAt : Nat
  updatedAt : Nat
  metrics : List TagMetric
deriving DecidableEq, Repr

/-- A row of the `searchIndexUpdateQueue` relation: an entity id and the
index name (`type`) the queued change is for. -/
structure SearchIndexUpdateQueueItem where
  id : Nat
  type : String
deriving DecidableEq, Repr

/-- The relational database visible to `onIndexUpdate`: the `tag` table and
the `searchIndexUpdateQueue` table. -/
structure Db where
  tags : List Tag
  searchIndexUpdateQueue : List SearchIndexUpdateQueueItem
deriving DecidableEq, Repr

/-- The six counters of a metric row as returned by the nested `select`
(the `timeframe` column is used only in the nested `where`, not selected). -/
structure SelectedMetric where
  postCount : Nat
  articleCount : Nat
  followerCount : Nat
  modelCount : Nat
  imageCount : Nat
  hiddenCount : Nat
deriving DecidableEq, Repr

/-- Projection of a `TagMetric` row to the selected counter columns. -/
def selectMetric (m : TagMetric) : SelectedMetric :=
  { postCount := m.postCount
    articleCount := m.articleCount
    followerCount := m.followerCount
    modelCount := m.modelCount
    imageCount := m.imageCount
    hiddenCount := m.hiddenCount }

/-- The shape of one record returned by `db.tag.findMany` with the `select`
clause of `onIndexUpdate`: the four scalar columns plus the nested
`metrics` rows restricted to `timeframe = MetricTimeframe.AllTime`. -/
structure FetchedTag where
  id : Nat
  name : String
  nsfw : Bool
  isCategory : Bool
  metrics : List SelectedMetric
deriving DecidableEq, Repr

/-- The `select` clause of the `db.tag.findMany` call: project the scalar
columns and keep only the metric rows whose `timeframe` is `AllTime`. -/
def selectTag (t : Tag) : FetchedTag :=
  { id := t.id
    name := t.name
    nsfw := t.nsfw
    isCategory := t.isCategory
    metrics :=
      (t.metrics.filter (fun m => m.timeframe == MetricTimeframe.AllTime)).map selectMetric }

/-- The flattened metrics object of an index-ready record. Each field is
`Option`-valued because the source builds it as a JavaScript object spread
`\x7b...(tagRecord.metrics[0] || \x7b\x7d)\x7d`: when the record has no metric
row the spread of the empty object produces an object with no fields at
all, modelled here as all fields `none`. -/
structure DocMetrics where
  postCount : Option Nat
  articleCount : Option Nat
  followerCount : Option Nat
  modelCount : Option Nat
  imageCount : Option Nat
  hiddenCount : Option Nat
deriving DecidableEq, Repr

/-- Spread of `tagRecord.metrics[0] || \x7b\x7d`: the first metric row if one
exists (every selected field becomes present), otherwise the empty object
(every field absent). -/
def spreadFirstMetric : List SelectedMetric → DocMetrics
  | [] =>
    { postCount := none
      articleCount := none
      followerCount := none
      modelCount := none
      imageCount := none
      hiddenCount := none }
  | m :: _ =>
    { postCount := some m.postCount
      articleCount := some m.articleCount
      followerCount := some m.followerCount
      modelCount := some m.modelCount
      imageCount := some m.imageCount
      hiddenCount := some m.hiddenCount }

/-- An index-ready document: the fetched record with its `metrics` array
replaced by the flattened metrics object. -/
structure IndexDocument where
  id : Nat
  name : String
  nsfw : Bool
  isCategory : Bool
  metrics : DocMetrics
deriving DecidableEq, Repr

/-- The per-record transformation inside `tags.map(...)` of `onIndexUpdate`:
spread the record and replace `metrics` by the flattened first row. -/
def transformTag (r : FetchedTag) : IndexDocument :=
  { id := r.id
    name := r.name
    nsfw := r.nsfw
    isCategory := r.isCategory
    metrics := spreadFirstMetric r.metrics }

/-- The `READ_BATCH_SIZE` constant of the source file. -/
def READ_BATCH_SIZE : Nat := 100

/-- The `INDEX_NAME` constant of the source file. -/
def INDEX_NAME : String := "tags"

/-- The `where` clause of the `db.tag.findMany` call: `unlisted: false`,
`adminOnly: false`, and — only when `lastUpdatedAt` is provided — the
disjunction `createdAt > lastUpdatedAt` or `updatedAt > lastUpdatedAt` or
`id` among the queued ids. When `lastUpdatedAt` is absent the `OR` entry is
`undefined`, i.e. no further restriction. -/
def tagQueryMatches (lastUpdatedAt : Option Nat) (pendingIds : List Nat) (t : Tag) : Bool :=
  t.unlisted == false && t.adminOnly == false &&
    (match lastUpdatedAt with
     | none => true
     | some w =>
       decide (t.createdAt > w) || decide (t.updatedAt > w) || pendingIds.contains t.id)

/-- The rows of the `tag` table matched by the `where` clause, in table
order, with `skip`/`take` pagination applied (Prisma `skip`/`take` over the
matching rows). -/
def tagPage (db : Db) (lastUpdatedAt : Option Nat) (pendingIds : List Nat)
    (skip take : Nat) : List Tag :=
  (((db.tags.filter (tagQueryMatches lastUpdatedAt pendingIds)).drop skip).take take)

/-- The full `db.tag.findMany` call of `onIndexUpdate`: the paginated
matching rows, each projected through the `select` clause. -/
def tagFindMany (db : Db) (lastUpdatedAt : Option Nat) (pendingIds : List Nat)
    (skip take : Nat) : List FetchedTag :=
  (tagPage db lastUpdatedAt pendingIds skip take).map selectTag

/-- The `db.searchIndexUpdateQueue.findMany` call followed by
`queuedItems.map((\x7bid\x7d) => id)`: the ids of the queue rows whose `type`
equals the given index name. -/
def searchIndexUpdateQueueFindMany (db : Db) (t : String) : List Nat :=
  (db.searchIndexUpdateQueue.filter (fun q => q.type == t)).map (fun q => q.id)

/-- Behaviour of the Meilisearch side for one run: whether the module-level
`client` is non-null, whether `getOrCreateIndex` yields an index (vs.
`null`/`undefined`), and whether the attribute-configuration calls
(`updateSearchableAttributes` / `updateSortableAttributes`) reject. -/
structure MeiliEnv where
  clientPresent : Bool
  hasIndex : Bool
  rejectsAttributes : Bool
deriving DecidableEq, Repr

/-- Outcome of an async function call: it either returned normally or an
awaited promise rejected and the exception propagated. -/
inductive RunOutcome where
  | completed
  | raised
deriving DecidableEq, Repr

/-- `onIndexSetup`: returns immediately when the client is null; returns
normally (without error) when `getOrCreateIndex` yields no index; raises
when the engine rejects the attribute configuration; otherwise waits for
the two attribute tasks and completes. -/
def onIndexSetup (env : MeiliEnv) : RunOutcome :=
  if env.clientPresent = false then RunOutcome.completed
  else if env.hasIndex = false then RunOutcome.completed
  else if env.rejectsAttributes then RunOutcome.raised
  else RunOutcome.completed

/-- One observable effect of `onIndexUpdate`, in program order:
reading the pending queue, fetching one page (`skip`, `take`, result),
submitting one page's documents via `updateDocuments` (receiving a task
handle), and the final `waitForTasks` on a list of handles. -/
inductive RunEvent where
  | readQueue (ids : List Nat)
  | fetch (skip take : Nat) (result : List FetchedTag)
  | submit (docs : List IndexDocument) (taskUid : Nat)
  | waitForTasks (uids : List Nat)
deriving DecidableEq, Repr

/-- The `while (offset < READ_BATCH_SIZE)` loop of `onIndexUpdate`, with the
batch size a parameter (`batch` bound both the loop guard and `take`, as
`READ_BATCH_SIZE` does in the source). Returns the events of the loop body
iterations and the task handles accumulated in `tagTasks`. Task handles are
numbered in submission order starting from `nextUid`. -/
def fetchLoop (batch : Nat) (db : Db) (lastUpdatedAt : Option Nat) (pendingIds : List Nat)
    (offset nextUid : Nat) : List RunEvent × List Nat :=
  if h : offset < batch then
    if hlen : (tagFindMany db lastUpdatedAt pendingIds offset batch).length = 0 then
      ([RunEvent.fetch offset batch (tagFindMany db lastUpdatedAt pendingIds offset batch)], [])
    else
      (RunEvent.fetch offset batch (tagFindMany db lastUpdatedAt pendingIds offset batch) ::
        RunEvent.submit
          ((tagFindMany db lastUpdatedAt pendingIds offset batch).map transformTag) nextUid ::
        (fetchLoop batch db lastUpdatedAt pendingIds
          (offset + (tagFindMany db lastUpdatedAt pendingIds offset batch).length)
          (nextUid + 1)).1,
       nextUid ::
        (fetchLoop batch db lastUpdatedAt pendingIds
          (offset + (tagFindMany db lastUpdatedAt pendingIds offset batch).length)
          (nextUid + 1)).2)
  else ([], [])
termination_by batch - offset
decreasing_by
  all_goals simp_wf
  all_goals omega

/-- Fuel-indexed reading of the same loop: each unit of fuel pays for one
iteration of the `while` body, and `none` means the fuel ran out before the
loop ended. Used to state that the loop always ends within a bounded number
of iterations. -/
def fetchLoopFuel : Nat → Nat → Db → Option Nat → List Nat → Nat → Nat →
    Option (List RunEvent × List Nat)
  | 0, _, _, _, _, _, _ => none
  | fuel + 1, batch, db, lastUpdatedAt, pendingIds, offset, nextUid =>
    if offset < batch then
      if (tagFindMany db lastUpdatedAt pendingIds offset batch).length = 0 then
        some ([RunEvent.fetch offset batch (tagFindMany db lastUpdatedAt pendingIds offset batch)],
          [])
      else
        match fetchLoopFuel fuel batch db lastUpdatedAt pendingIds
            (offset + (tagFindMany db lastUpdatedAt pendingIds offset batch).length)
            (nextUid + 1) with
        | none => none
        | some (evs, uids) =>
          some (RunEvent.fetch offset batch (tagFindMany db lastUpdatedAt pendingIds offset batch) ::
            RunEvent.submit
              ((tagFindMany db lastUpdatedAt pendingIds offset batch).map transformTag) nextUid ::
            evs,
            nextUid :: uids)
    else some ([], [])

/-- The run context passed to `onIndexUpdate` (`\x7bdb, lastUpdatedAt\x7d`). -/
structure SearchIndexRunContext where
  db : Db
  lastUpdatedAt : Option Nat
deriving DecidableEq, Repr

/-- `onIndexUpdate`: returns immediately when the client is null; calls
`onIndexSetup` (a raised setup error propagates before any database
access); reads the pending queue once; runs the fetch loop from offset 0;
finally waits for all accumulated task handles. The result is the list of
observable events in program order together with the outcome. -/
def onIndexUpdate (env : MeiliEnv) (ctx : SearchIndexRunContext) :
    List RunEvent × RunOutcome :=
  if env.clientPresent = false then ([], RunOutcome.completed)
  else
    match onIndexSetup env with
    | RunOutcome.raised => ([], RunOutcome.raised)
    | RunOutcome.completed =>
      (RunEvent.readQueue (searchIndexUpdateQueueFindMany ctx.db INDEX_NAME) ::
        (fetchLoop READ_BATCH_SIZE ctx.db ctx.lastUpdatedAt
          (searchIndexUpdateQueueFindMany ctx.db INDEX_NAME) 0 0).1 ++
        [RunEvent.waitForTasks
          (fetchLoop READ_BATCH_SIZE ctx.db ctx.lastUpdatedAt
            (searchIndexUpdateQueueFindMany ctx.db INDEX_NAME) 0 0).2],
       RunOutcome.completed)

/-- Whether an event is a page fetch. -/
def isFetch : RunEvent → Bool
  | RunEvent.fetch _ _ _ => true
  | _ => false

/-- Whether an event is a document submission. -/
def isSubmit : RunEvent → Bool
  | RunEvent.submit _ _ => true
  | _ => false

/-- Whether an event is a `waitForTasks` call. -/
def isWait : RunEvent → Bool
  | RunEvent.waitForTasks _ => true
  | _ => false

/-- Whether an event is a pending-queue read. -/
def isReadQueue : RunEvent → Bool
  | RunEvent.readQueue _ => true
  | _ => false

/-- The task handles of the submission events of an event list, in order. -/
def submitUids : List RunEvent → List Nat
  | [] => []
  | RunEvent.submit _ uid :: rest => uid :: submitUids rest
  | _ :: rest => submitUids rest

/-- With enough fuel (one unit more than the remaining loop-guard budget)
the fuel-indexed loop never runs out, and agrees with `fetchLoop`. -/
theorem fetchLoopFuel_complete : ∀ (fuel batch : Nat) (db : Db) (lastUpdatedAt : Option Nat)
    (pendingIds : List Nat) (offset nextUid : Nat), batch - offset < fuel →
    fetchLoopFuel fuel batch db lastUpdatedAt pendingIds offset nextUid =
      some (fetchLoop batch db lastUpdatedAt pendingIds offset nextUid) := by
  intro fuel
  induction fuel with
  | zero =>
    intro batch db w pend offset uid hfuel
    omega
  | succ n ih =>
    intro batch db w pend offset uid hfuel
    rw [fetchLoop, fetchLoopFuel]
    by_cases hofs : offset < batch
    · simp only [hofs, dif_pos, if_pos]
      by_cases hlen : (tagFindMany db w pend offset batch).length = 0
      · simp only [hlen, dif_pos, if_pos]
      · have hrec := ih batch db w pend
          (offset + (tagFindMany db w pend offset batch).length) (uid + 1) (by omega)
        simp only [hlen, dif_neg, if_neg, not_false_iff, hrec]
    · simp only [hofs, dif_neg, if_neg, not_false_iff]

/-- Reading off a concrete value of `fetchLoop` from a concrete run of the
fuel-indexed loop. -/
theorem fetchLoop_eq_of_fuel (fuel batch : Nat) (db : Db) (lastUpdatedAt : Option Nat)
    (pendingIds : List Nat) (offset nextUid : Nat) {p : List RunEvent × List Nat}
    (hfuel : batch - offset < fuel)
    (hrun : fetchLoopFuel fuel batch db lastUpdatedAt pendingIds offset nextUid = some p) :
    fetchLoop batch db lastUpdatedAt pendingIds offset nextUid = p := by
  have h := fetchLoopFuel_complete fuel batch db lastUpdatedAt pendingIds offset nextUid hfuel
  rw [h] at hrun
  exact Option.some.inj hrun

/-- The handle list accumulated by the loop is exactly the handles of its
submission events, in order. -/
theorem fetchLoopFuel_uids : ∀ (fuel batch : Nat) (db : Db) (lastUpdatedAt : Option Nat)
    (pendingIds : List Nat) (offset nextUid : Nat) (p : List RunEvent × List Nat),
    fetchLoopFuel fuel batch db lastUpdatedAt pendingIds offset nextUid = some p →
    p.2 = submitUids p.1 := by
  intro fuel
  induction fuel with
  | zero =>
    intro batch db w pend offset uid p h
    simp [fetchLoopFuel] at h
  | succ n ih =>
    intro batch db w pend offset uid p h
    rw [fetchLoopFuel] at h
    by_cases hofs : offset < batch
    · rw [if_pos hofs] at h
      by_cases hlen : (tagFindMany db w pend offset batch).length = 0
      · rw [if_pos hlen] at h
        cases Option.some.inj h
        simp [submitUids]
      · rw [if_neg hlen] at h
        cases hrec : fetchLoopFuel n batch db w pend
            (offset + (tagFindMany db w pend offset batch).length) (uid + 1) with
        | none => rw [hrec] at h; exact absurd h (by simp)
        | some q =>
          rw [hrec] at h
          cases q with
          | mk evs uids =>
            cases Option.some.inj h
            have hq := ih batch db w pend
              (offset + (tagFindMany db w pend offset batch).length) (uid + 1) (evs, uids) hrec
            simpa [submitUids] using hq
    · rw [if_neg hofs] at h
      cases Option.some.inj h
      simp [submitUids]

/-- The loop itself emits no `waitForTasks` and no queue-read events: those
happen outside the `while` body. -/
theorem fetchLoopFuel_body_events : ∀ (fuel batch : Nat) (db : Db) (lastUpdatedAt : Option Nat)
    (pendingIds : List Nat) (offset nextUid : Nat) (p : List RunEvent × List Nat),
    fetchLoopFuel fuel batch db lastUpdatedAt pendingIds offset nextUid = some p →
    ∀ e ∈ p.1, isWait e = false ∧ isReadQueue e = false := by
  intro fuel
  induction fuel with
  | zero =>
    intro batch db w pend offset uid p h
    simp [fetchLoopFuel] at h
  | succ n ih =>
    intro batch db w pend offset uid p h
    rw [fetchLoopFuel] at h
    by_cases hofs : offset < batch
    · rw [if_pos hofs] at h
      by_cases hlen : (tagFindMany db w pend offset batch).length = 0
      · rw [if_pos hlen] at h
        cases Option.some.inj h
        intro e he
        simp at he
        subst he
        simp [isWait, isReadQueue]
      · rw [if_neg hlen] at h
        cases hrec : fetchLoopFuel n batch db w pend
            (offset + (tagFindMany db w pend offset batch).length) (uid + 1) with
        | none => rw [hrec] at h; exact absurd h (by simp)
        | some q =>
          rw [hrec] at h
          cases q with
          | mk evs uids =>
            cases Option.some.inj h
            intro e he
            simp only [List.mem_cons] at he
            rcases he with rfl | rfl | he
            · simp [isWait, isReadQueue]
            · simp [isWait, isReadQueue]
            · exact ih batch db w pend
                (offset + (tagFindMany db w pend offset batch).length) (uid + 1) (evs, uids)
                hrec e he
    · rw [if_neg hofs] at h
      cases Option.some.inj h
      intro e he
      simp at he

/-- Every fetch event of the loop uses `take = batch` and carries exactly
the result of the `findMany` call at its offset, computed against the one
pending-id snapshot the loop was started with. -/
theorem fetchLoopFuel_fetch_events : ∀ (fuel batch : Nat) (db : Db) (lastUpdatedAt : Option Nat)
    (pendingIds : List Nat) (offset nextUid : Nat) (p : List RunEvent × List Nat),
    fetchLoopFuel fuel batch db lastUpdatedAt pendingIds offset nextUid = some p →
    ∀ s t res, RunEvent.fetch s t res ∈ p.1 →
      t = batch ∧ res = tagFindMany db lastUpdatedAt pendingIds s batch := by
  intro fuel
  induction fuel with
  | zero =>
    intro batch db w pend offset uid p h
    simp [fetchLoopFuel] at h
  | succ n ih =>
    intro batch db w pend offset uid p h
    rw [fetchLoopFuel] at h
    by_cases hofs : offset < batch
    · rw [if_pos hofs] at h
      by_cases hlen : (tagFindMany db w pend offset batch).length = 0
      · rw [if_pos hlen] at h
        cases Option.some.inj h
        intro s t res hmem
        simp at hmem
        obtain ⟨rfl, rfl, rfl⟩ := hmem
        exact ⟨rfl, rfl⟩
      · rw [if_neg hlen] at h
        cases hrec : fetchLoopFuel n batch db w pend
            (offset + (tagFindMany db w pend offset batch).length) (uid + 1) with
        | none => rw [hrec] at h; exact absurd h (by simp)
        | some q =>
          rw [hrec] at h
          cases q with
          | mk evs uids =>
            cases Option.some.inj h
            intro s t res hmem
            simp only [List.mem_cons] at hmem
            rcases hmem with heq | heq | hmem
            · cases heq
              exact ⟨rfl, rfl⟩
            · cases heq
            · exact ih batch db w pend
                (offset + (tagFindMany db w pend offset batch).length) (uid + 1) (evs, uids)
                hrec s t res hmem
    · rw [if_neg hofs] at h
      cases Option.some.inj h
      intro s t res hmem
      simp at hmem

/-- Every document the loop submits is the transform of a page record, so it
originates from a `tag` row matched by the `where` clause. -/
theorem fetchLoopFuel_submit_events : ∀ (fuel batch : Nat) (db : Db) (lastUpdatedAt : Option Nat)
    (pendingIds : List Nat) (offset nextUid : Nat) (p : List RunEvent × List Nat),
    fetchLoopFuel fuel batch db lastUpdatedAt pendingIds offset nextUid = some p →
    ∀ docs u, RunEvent.submit docs u ∈ p.1 →
      ∃ s, docs = (tagFindMany db lastUpdatedAt pendingIds s batch).map transformTag := by
  intro fuel
  induction fuel with
  | zero =>
    intro batch db w pend offset uid p h
    simp [fetchLoopFuel] at h
  | succ n ih =>
    intro batch db w pend offset uid p h
    rw [fetchLoopFuel] at h
    by_cases hofs : offset < batch
    · rw [if_pos hofs] at h
      by_cases hlen : (tagFindMany db w pend offset batch).length = 0
      · rw [if_pos hlen] at h
        cases Option.some.inj h
        intro docs u hmem
        simp at hmem
      · rw [if_neg hlen] at h
        cases hrec : fetchLoopFuel n batch db w pend
            (offset + (tagFindMany db w pend offset batch).length) (uid + 1) with
        | none => rw [hrec] at h; exact absurd h (by simp)
        | some q =>
          rw [hrec] at h
          cases q with
          | mk evs uids =>
            cases Option.some.inj h
            intro docs u hmem
            simp only [List.mem_cons] at hmem
            rcases hmem with heq | heq | hmem
            · cases heq
            · cases heq
              exact ⟨offset, rfl⟩
            · exact ih batch db w pend
                (offset + (tagFindMany db w pend offset batch).length) (uid + 1) (evs, uids)
                hrec docs u hmem
    · rw [if_neg hofs] at h
      cases Option.some.inj h
      intro docs u hmem
      simp at hmem

/-- `fetchLoop` version of `fetchLoopFuel_uids`. -/
theorem fetchLoop_uids (batch : Nat) (db : Db) (lastUpdatedAt : Option Nat)
    (pendingIds : List Nat) (offset nextUid : Nat) :
    (fetchLoop batch db lastUpdatedAt pendingIds offset nextUid).2 =
      submitUids (fetchLoop batch db lastUpdatedAt pendingIds offset nextUid).1 :=
  fetchLoopFuel_uids (batch - offset + 1) batch db lastUpdatedAt pendingIds offset nextUid _
    (fetchLoopFuel_complete _ _ _ _ _ _ _ (by omega))

/-- `fetchLoop` version of `fetchLoopFuel_body_events`. -/
theorem fetchLoop_body_events (batch : Nat) (db : Db) (lastUpdatedAt : Option Nat)
    (pendingIds : List Nat) (offset nextUid : Nat) :
    ∀ e ∈ (fetchLoop batch db lastUpdatedAt pendingIds offset nextUid).1,
      isWait e = false ∧ isReadQueue e = false :=
  fetchLoopFuel_body_events (batch - offset + 1) batch db lastUpdatedAt pendingIds offset nextUid _
    (fetchLoopFuel_complete _ _ _ _ _ _ _ (by omega))

/-- `fetchLoop` version of `fetchLoopFuel_fetch_events`. -/
theorem fetchLoop_fetch_events (batch : Nat) (db : Db) (lastUpdatedAt : Option Nat)
    (pendingIds : List Nat) (offset nextUid : Nat) :
    ∀ s t res, RunEvent.fetch s t res ∈ (fetchLoop batch db lastUpdatedAt pendingIds offset nextUid).1 →
      t = batch ∧ res = tagFindMany db lastUpdatedAt pendingIds s batch :=
  fetchLoopFuel_fetch_events (batch - offset + 1) batch db lastUpdatedAt pendingIds offset nextUid _
    (fetchLoopFuel_complete _ _ _ _ _ _ _ (by omega))

/-- `submitUids` distributes over list append. -/
theorem submitUids_append : ∀ (l1 l2 : List RunEvent),
    submitUids (l1 ++ l2) = submitUids l1 ++ submitUids l2 := by
  intro l1 l2
  induction l1 with
  | nil => simp [submitUids]
  | cons e rest ih => cases e <;> simp [submitUids, ih]

/-- Every transformed page document comes from a `tag` row that passes the
unconditional `unlisted: false, adminOnly: false` part of the `where`
clause. -/
theorem tagFindMany_map_transform_subset (db : Db) (lastUpdatedAt : Option Nat)
    (pendingIds : List Nat) (skip take : Nat) :
    (tagFindMany db lastUpdatedAt pendingIds skip take).map transformTag ⊆
      (db.tags.filter (fun t => t.unlisted == false && t.adminOnly == false)).map
        (fun t => transformTag (selectTag t)) := by
  intro d hd
  simp only [tagFindMany, tagPage, List.map_map, List.mem_map, Function.comp] at hd
  obtain ⟨t, ht, rfl⟩ := hd
  have ht2 : t ∈ db.tags.filter (tagQueryMatches lastUpdatedAt pendingIds) :=
    List.drop_subset skip _ (List.take_subset take _ ht)
  rw [List.mem_filter] at ht2
  refine List.mem_map.mpr ⟨t, List.mem_filter.mpr ⟨ht2.1, ?_⟩, rfl⟩
  have hm := ht2.2
  unfold tagQueryMatches at hm
  simp only [Bool.and_eq_true] at hm ⊢
  exact hm.1

/-- `fetchLoop` version of `fetchLoopFuel_submit_events`. -/
theorem fetchLoop_submit_events (batch : Nat) (db : Db) (lastUpdatedAt : Option Nat)
    (pendingIds : List Nat) (offset nextUid : Nat) :
    ∀ docs u, RunEvent.submit docs u ∈ (fetchLoop batch db lastUpdatedAt pendingIds offset nextUid).1 →
      ∃ s, docs = (tagFindMany db lastUpdatedAt pendingIds s batch).map transformTag :=
  fetchLoopFuel_submit_events (batch - offset + 1) batch db lastUpdatedAt pendingIds offset nextUid _
    (fetchLoopFuel_complete _ _ _ _ _ _ _ (by omega))

/-- A listed (not unlisted, not admin-only) tag with no metric rows, used as
concrete test data. -/
def mkTag (i : Nat) : Tag :=
  { id := i
    name := "t"
    nsfw := false
    isCategory := false
    unlisted := false
    adminOnly := false
    createdAt := i
    updatedAt := i
    metrics := [] }

/-- A database with a single eligible tag and an empty pending queue. -/
def db1 : Db := ⟨[mkTag 1], []⟩

/-- A database with five eligible tags and an empty pending queue — the
scenario of the spec with five eligible records. -/
def exDb5 : Db := ⟨[mkTag 1, mkTag 2, mkTag 3, mkTag 4, mkTag 5], []⟩

/-- A database with two hundred eligible tags, enough to exceed the
configured `READ_BATCH_SIZE` of 100. -/
def db200 : Db := ⟨(List.range 200).map mkTag, []⟩

/-- An engine environment where everything works: client present, index
available, attribute configuration accepted. -/
def envOk : MeiliEnv := ⟨true, true, false⟩

/-- Run context with a single eligible tag and a null watermark. -/
def ctx1 : SearchIndexRunContext := ⟨db1, none⟩

/-- Concrete evaluation of the fetch loop on `db1`: one page of one record,
then the empty page at offset 1 ends the loop. -/
theorem db1_loop_eval : fetchLoop READ_BATCH_SIZE db1 none [] 0 0 =
    ([RunEvent.fetch 0 READ_BATCH_SIZE [selectTag (mkTag 1)],
      RunEvent.submit [transformTag (selectTag (mkTag 1))] 0,
      RunEvent.fetch 1 READ_BATCH_SIZE []], [0]) :=
  fetchLoop_eq_of_fuel 101 READ_BATCH_SIZE db1 none [] 0 0 (by decide) (by decide)

/-- Concrete evaluation of a whole successful run over `db1`. -/
theorem run1_eval : onIndexUpdate envOk ctx1 =
    ([RunEvent.readQueue [],
      RunEvent.fetch 0 READ_BATCH_SIZE [selectTag (mkTag 1)],
      RunEvent.submit [transformTag (selectTag (mkTag 1))] 0,
      RunEvent.fetch 1 READ_BATCH_SIZE [],
      RunEvent.waitForTasks [0]], RunOutcome.completed) := by
  have hq : searchIndexUpdateQueueFindMany db1 INDEX_NAME = [] := rfl
  have hd : ctx1.db = db1 := rfl
  have hl : ctx1.lastUpdatedAt = none := rfl
  have hloop := db1_loop_eval
  simp [onIndexUpdate, onIndexSetup, envOk, hd, hl, hq, hloop]

/-- An engine environment whose client is null. -/
def envNull : MeiliEnv := ⟨false, false, false⟩

/-- An engine environment where the client is present but `getOrCreateIndex`
yields no index. -/
def envNoIndex : MeiliEnv := ⟨true, false, false⟩

/-- An engine environment where the client and index are present but the
engine rejects the attribute configuration. -/
def envRej : MeiliEnv := ⟨true, true, true⟩

/-- Concrete evaluation of a run in which `getOrCreateIndex` yields no
index: `onIndexSetup` returns silently and the run proceeds to fetch and
submit exactly as in the fully-working environment. -/
theorem runNoIndex_eval : onIndexUpdate envNoIndex ctx1 =
    ([RunEvent.readQueue [],
      RunEvent.fetch 0 READ_BATCH_SIZE [selectTag (mkTag 1)],
      RunEvent.submit [transformTag (selectTag (mkTag 1))] 0,
      RunEvent.fetch 1 READ_BATCH_SIZE [],
      RunEvent.waitForTasks [0]], RunOutcome.completed) := by
  have hq : searchIndexUpdateQueueFindMany db1 INDEX_NAME = [] := rfl
  have hd : ctx1.db = db1 := rfl
  have hl : ctx1.lastUpdatedAt = none := rfl
  have hloop := db1_loop_eval
  simp [onIndexUpdate, onIndexSetup, envNoIndex, hd, hl, hq, hloop]

/-- An unlisted tag whose `createdAt` and `updatedAt` exceed the watermark
value 3 used in the eligibility counterexample. -/
def badTag : Tag := ⟨1, "t", false, false, true, false, 5, 5, []⟩

/-- A database holding only the unlisted `badTag`. -/
def dbBad : Db := ⟨[badTag], []⟩

/-- Run context over `dbBad` with watermark 3. -/
def ctxBad : SearchIndexRunContext := ⟨dbBad, some 3⟩

/-- Concrete evaluation of the fetch loop over `dbBad`: the very first page
is empty because the unlisted tag is filtered out. -/
theorem dbBad_loop_eval : fetchLoop READ_BATCH_SIZE dbBad (some 3) [] 0 0 =
    ([RunEvent.fetch 0 READ_BATCH_SIZE []], []) :=
  fetchLoop_eq_of_fuel 101 READ_BATCH_SIZE dbBad (some 3) [] 0 0 (by decide) (by decide)

/-- Concrete evaluation of a whole run over `dbBad`. -/
theorem runBad_eval : onIndexUpdate envOk ctxBad =
    ([RunEvent.readQueue [], RunEvent.fetch 0 READ_BATCH_SIZE [],
      RunEvent.waitForTasks []], RunOutcome.completed) := by
  have hq : searchIndexUpdateQueueFindMany dbBad INDEX_NAME = [] := rfl
  have hd : ctxBad.db = dbBad := rfl
  have hl : ctxBad.lastUpdatedAt = some 3 := rfl
  have hloop := dbBad_loop_eval
  simp [onIndexUpdate, onIndexSetup, envOk, hd, hl, hq, hloop]

/-- C10: when the search-engine client is absent, `onIndexUpdate` returns
immediately: it emits no events (no pending-queue read, no record fetch, no
document submission, no wait) and completes without raising. -/
theorem onIndexUpdate_null_client_noop (env : MeiliEnv) (ctx : SearchIndexRunContext)
    (hc : env.clientPresent = false) :
    onIndexUpdate env ctx = ([], RunOutcome.completed) := by
  simp [onIndexUpdate, hc]

/-- Witness for C10 at the concrete null-client environment. -/
theorem onIndexUpdate_null_client_noop_witness :
    onIndexUpdate envNull ctx1 = ([], RunOutcome.completed) :=
  onIndexUpdate_null_client_noop envNull ctx1 rfl

/-- C6: with a null watermark the `where` clause places no
`createdAt`/`updatedAt`/pending-queue restriction at all — a row is matched
exactly when it is listed (`unlisted = false`) and not admin-only,
whatever the pending-id snapshot and whatever its timestamps. -/
theorem tagQuery_null_watermark_full_backfill (pendingIds : List Nat) (t : Tag) :
    tagQueryMatches none pendingIds t = (t.unlisted == false && t.adminOnly == false) := by
  simp [tagQueryMatches]

/-- C5 counterexample: the engine does not provide the index
(`getOrCreateIndex` yields nothing), yet setup completes silently and the
run still fetches twice and submits one batch of documents — schema-setup
failure of this kind is not fatal and documents are written. -/
theorem onIndexSetup_missing_index_not_fatal_cex :
    envNoIndex.hasIndex = false ∧ onIndexSetup envNoIndex = RunOutcome.completed ∧
    (onIndexUpdate envNoIndex ctx1).1.countP isFetch = 2 ∧
    (onIndexUpdate envNoIndex ctx1).1.countP isSubmit = 1 := by
  refine ⟨rfl, rfl, ?_, ?_⟩ <;> rw [runNoIndex_eval] <;> decide

/-- C5 as amended: when the engine rejects the attribute configuration the
raised error propagates out of `onIndexUpdate` before any database access —
no queue read, no record fetch, no document submission. -/
theorem onIndexUpdate_rejected_setup_aborts (env : MeiliEnv) (ctx : SearchIndexRunContext)
    (hc : env.clientPresent = true) (hi : env.hasIndex = true)
    (hr : env.rejectsAttributes = true) :
    onIndexUpdate env ctx = ([], RunOutcome.raised) := by
  simp [onIndexUpdate, onIndexSetup, hc, hi, hr]

/-- Witness for the amended C5 at the concrete rejecting environment. -/
theorem onIndexUpdate_rejected_setup_aborts_witness :
    onIndexUpdate envRej ctx1 = ([], RunOutcome.raised) :=
  onIndexUpdate_rejected_setup_aborts envRej ctx1 rfl rfl rfl

/-- C2 counterexample: `badTag` has `createdAt` strictly above the
watermark 3, yet the `where` clause rejects it (it is unlisted), and a run
over a database holding only `badTag` fetches one empty page and submits
nothing — so timestamp/pending conditions alone do not determine
selection. -/
theorem tagQuery_eligibility_not_only_dates_cex :
    3 < badTag.createdAt ∧ tagQueryMatches (some 3) [] badTag = false ∧
    (onIndexUpdate envOk ctxBad).1.countP isSubmit = 0 ∧
    RunEvent.fetch 0 READ_BATCH_SIZE [] ∈ (onIndexUpdate envOk ctxBad).1 := by
  refine ⟨by decide, by decide, ?_, ?_⟩ <;> rw [runBad_eval] <;> decide

/-- C2 as amended: with a non-null watermark `w`, a row is matched by the
fetch query's `where` clause iff it is listed (`unlisted = false`), not
admin-only, and (`createdAt > w` or `updatedAt > w` or its id is in the
pending-change snapshot). -/
theorem tagQuery_eligibility_with_watermark (w : Nat) (pendingIds : List Nat) (t : Tag) :
    tagQueryMatches (some w) pendingIds t = true ↔
      (t.unlisted = false ∧ t.adminOnly = false ∧
        (w < t.createdAt ∨ w < t.updatedAt ∨ t.id ∈ pendingIds)) := by
  simp [tagQueryMatches, List.elem_iff, and_assoc, or_assoc]

/-- The submission handles of a full run event list are those of its loop
segment: the leading queue read and the trailing wait contribute none. -/
theorem submitUids_run (q : List Nat) (L : List RunEvent) (U : List Nat) :
    submitUids ((RunEvent.readQueue q :: L) ++ [RunEvent.waitForTasks U]) = submitUids L := by
  simp [List.cons_append, submitUids, submitUids_append]

/-- C3: in every run that reaches the loop (client present, setup
completed), the final event is the single `waitForTasks` call, and the
handle list it waits on is exactly the handles of all `updateDocuments`
submissions of the run — no collected handle is left unawaited, and nothing
happens after the wait. -/
theorem onIndexUpdate_waits_all_collected (env : MeiliEnv) (ctx : SearchIndexRunContext)
    (hc : env.clientPresent = true) (hs : onIndexSetup env = RunOutcome.completed) :
    (onIndexUpdate env ctx).1.getLast? =
      some (RunEvent.waitForTasks (submitUids (onIndexUpdate env ctx).1)) ∧
    ((onIndexUpdate env ctx).1.filter isWait).length = 1 := by
  have hL := fetchLoop_uids READ_BATCH_SIZE ctx.db ctx.lastUpdatedAt
    (searchIndexUpdateQueueFindMany ctx.db INDEX_NAME) 0 0
  have hbody := fetchLoop_body_events READ_BATCH_SIZE ctx.db ctx.lastUpdatedAt
    (searchIndexUpdateQueueFindMany ctx.db INDEX_NAME) 0 0
  have hrun : (onIndexUpdate env ctx).1 =
      RunEvent.readQueue (searchIndexUpdateQueueFindMany ctx.db INDEX_NAME) ::
        (fetchLoop READ_BATCH_SIZE ctx.db ctx.lastUpdatedAt
          (searchIndexUpdateQueueFindMany ctx.db INDEX_NAME) 0 0).1 ++
        [RunEvent.waitForTasks
          (fetchLoop READ_BATCH_SIZE ctx.db ctx.lastUpdatedAt
            (searchIndexUpdateQueueFindMany ctx.db INDEX_NAME) 0 0).2] := by
    simp [onIndexUpdate, hc, hs]
  rw [hrun]
  constructor
  · rw [List.getLast?_concat, submitUids_run]
    exact congrArg (fun u => some (RunEvent.waitForTasks u)) hL
  · have hnil : ((fetchLoop READ_BATCH_SIZE ctx.db ctx.lastUpdatedAt
        (searchIndexUpdateQueueFindMany ctx.db INDEX_NAME) 0 0).1).filter isWait = [] :=
      List.filter_eq_nil_iff.mpr (fun e he => by simp [(hbody e he).1])
    simp [List.filter_append, isWait, hnil]

/-- Witness for C3 at the concrete one-tag database. -/
theorem onIndexUpdate_waits_all_collected_witness :
    (onIndexUpdate envOk ctx1).1.getLast? =
      some (RunEvent.waitForTasks (submitUids (onIndexUpdate envOk ctx1).1)) ∧
    ((onIndexUpdate envOk ctx1).1.filter isWait).length = 1 :=
  onIndexUpdate_waits_all_collected envOk ctx1 rfl rfl

/-- C7: in every run that reaches the loop, the pending queue is read
exactly once, as the very first event (before any page fetch); the snapshot
read is the queue entries whose `type` equals the index name; and every
page fetch of the run returns exactly the `findMany` result computed
against that one snapshot. -/
theorem onIndexUpdate_reads_queue_once_first (env : MeiliEnv) (ctx : SearchIndexRunContext)
    (hc : env.clientPresent = true) (hs : onIndexSetup env = RunOutcome.completed) :
    ((onIndexUpdate env ctx).1.filter isReadQueue).length = 1 ∧
    (onIndexUpdate env ctx).1.head? =
      some (RunEvent.readQueue (searchIndexUpdateQueueFindMany ctx.db INDEX_NAME)) ∧
    ((onIndexUpdate env ctx).1.all (fun e =>
      match e with
      | RunEvent.fetch s t res =>
        res == tagFindMany ctx.db ctx.lastUpdatedAt
          (searchIndexUpdateQueueFindMany ctx.db INDEX_NAME) s t
      | _ => true)) = true := by
  have hbody := fetchLoop_body_events READ_BATCH_SIZE ctx.db ctx.lastUpdatedAt
    (searchIndexUpdateQueueFindMany ctx.db INDEX_NAME) 0 0
  have hrun : (onIndexUpdate env ctx).1 =
      RunEvent.readQueue (searchIndexUpdateQueueFindMany ctx.db INDEX_NAME) ::
        (fetchLoop READ_BATCH_SIZE ctx.db ctx.lastUpdatedAt
          (searchIndexUpdateQueueFindMany ctx.db INDEX_NAME) 0 0).1 ++
        [RunEvent.waitForTasks
          (fetchLoop READ_BATCH_SIZE ctx.db ctx.lastUpdatedAt
            (searchIndexUpdateQueueFindMany ctx.db INDEX_NAME) 0 0).2] := by
    simp [onIndexUpdate, hc, hs]
  rw [hrun]
  refine ⟨?_, rfl, ?_⟩
  · have hnil : ((fetchLoop READ_BATCH_SIZE ctx.db ctx.lastUpdatedAt
        (searchIndexUpdateQueueFindMany ctx.db INDEX_NAME) 0 0).1).filter isReadQueue = [] :=
      List.filter_eq_nil_iff.mpr (fun e he => by simp [(hbody e he).2])
    simp [List.filter_append, isReadQueue, hnil]
  · rw [List.all_eq_true]
    intro e he
    simp only [List.mem_cons, List.mem_append, List.mem_singleton] at he
    rcases he with (rfl | he) | (rfl | hnil)
    · rfl
    · cases e with
      | readQueue ids => rfl
      | submit docs u => rfl
      | waitForTasks uids => rfl
      | fetch s t res =>
        obtain ⟨rfl, rfl⟩ := fetchLoop_fetch_events READ_BATCH_SIZE ctx.db ctx.lastUpdatedAt
          (searchIndexUpdateQueueFindMany ctx.db INDEX_NAME) 0 0 s t res he
        simp
    · rfl
    · simp at hnil

/-- Witness for C7 at the concrete one-tag database. -/
theorem onIndexUpdate_reads_queue_once_first_witness :
    ((onIndexUpdate envOk ctx1).1.filter isReadQueue).length = 1 ∧
    (onIndexUpdate envOk ctx1).1.head? =
      some (RunEvent.readQueue (searchIndexUpdateQueueFindMany ctx1.db INDEX_NAME)) ∧
    ((onIndexUpdate envOk ctx1).1.all (fun e =>
      match e with
      | RunEvent.fetch s t res =>
        res == tagFindMany ctx1.db ctx1.lastUpdatedAt
          (searchIndexUpdateQueueFindMany ctx1.db INDEX_NAME) s t
      | _ => true)) = true :=
  onIndexUpdate_reads_queue_once_first envOk ctx1 rfl rfl

/-- C9: every document of every `updateDocuments` submission of a run is
the transform of a tag row that passes the unconditional
`unlisted: false, adminOnly: false` filter — unlisted or admin-only rows
are never submitted to the index, whatever their timestamps or pending
status. -/
theorem onIndexUpdate_submits_only_visible (env : MeiliEnv) (ctx : SearchIndexRunContext)
    (docs : List IndexDocument) (u : Nat)
    (h : RunEvent.submit docs u ∈ (onIndexUpdate env ctx).1) :
    docs ⊆ (ctx.db.tags.filter (fun t => t.unlisted == false && t.adminOnly == false)).map
      (fun t => transformTag (selectTag t)) := by
  by_cases hc : env.clientPresent = false
  · simp [onIndexUpdate, hc] at h
  · rw [Bool.not_eq_false] at hc
    cases hset : onIndexSetup env with
    | raised => simp [onIndexUpdate, hc, hset] at h
    | completed =>
      have hrun : (onIndexUpdate env ctx).1 =
          RunEvent.readQueue (searchIndexUpdateQueueFindMany ctx.db INDEX_NAME) ::
            (fetchLoop READ_BATCH_SIZE ctx.db ctx.lastUpdatedAt
              (searchIndexUpdateQueueFindMany ctx.db INDEX_NAME) 0 0).1 ++
            [RunEvent.waitForTasks
              (fetchLoop READ_BATCH_SIZE ctx.db ctx.lastUpdatedAt
                (searchIndexUpdateQueueFindMany ctx.db INDEX_NAME) 0 0).2] := by
        simp [onIndexUpdate, hc, hset]
      rw [hrun] at h
      simp only [List.mem_cons, List.mem_append, List.mem_singleton] at h
      rcases h with (heq | hmem) | (heq | hnil)
      · exact RunEvent.noConfusion heq
      · obtain ⟨s, rfl⟩ := fetchLoop_submit_events READ_BATCH_SIZE ctx.db ctx.lastUpdatedAt
          (searchIndexUpdateQueueFindMany ctx.db INDEX_NAME) 0 0 docs u hmem
        exact tagFindMany_map_transform_subset ctx.db ctx.lastUpdatedAt _ s READ_BATCH_SIZE
      · exact RunEvent.noConfusion heq
      · simp at hnil

/-- Witness for C9: the one document submitted by the concrete run over
`db1` indeed lies in the transformed listed rows of the database. -/
theorem onIndexUpdate_submits_only_visible_witness :
    [transformTag (selectTag (mkTag 1))] ⊆
      (ctx1.db.tags.filter (fun t => t.unlisted == false && t.adminOnly == false)).map
        (fun t => transformTag (selectTag t)) :=
  onIndexUpdate_submits_only_visible envOk ctx1 [transformTag (selectTag (mkTag 1))] 0
    (by rw [run1_eval]; simp)

/-- C8: one loop iteration on a non-empty page emits the fetch and submit
events and continues at `offset` increased by the number of records
actually returned (which is at most — possibly strictly below — the
configured batch size); and the loop always ends within
`batch - offset + 1` iterations of fuel, so it cannot run forever. -/
theorem fetchLoop_advances_by_returned (batch : Nat) (db : Db) (lastUpdatedAt : Option Nat)
    (pendingIds : List Nat) (offset nextUid : Nat)
    (hofs : offset < batch)
    (hne : (tagFindMany db lastUpdatedAt pendingIds offset batch).length ≠ 0) :
    fetchLoop batch db lastUpdatedAt pendingIds offset nextUid =
      (RunEvent.fetch offset batch (tagFindMany db lastUpdatedAt pendingIds offset batch) ::
        RunEvent.submit
          ((tagFindMany db lastUpdatedAt pendingIds offset batch).map transformTag) nextUid ::
        (fetchLoop batch db lastUpdatedAt pendingIds
          (offset + (tagFindMany db lastUpdatedAt pendingIds offset batch).length)
          (nextUid + 1)).1,
       nextUid ::
        (fetchLoop batch db lastUpdatedAt pendingIds
          (offset + (tagFindMany db lastUpdatedAt pendingIds offset batch).length)
          (nextUid + 1)).2) ∧
    (tagFindMany db lastUpdatedAt pendingIds offset batch).length ≤ batch ∧
    fetchLoopFuel (batch - offset + 1) batch db lastUpdatedAt pendingIds offset nextUid =
      some (fetchLoop batch db lastUpdatedAt pendingIds offset nextUid) := by
  refine ⟨?_, ?_, fetchLoopFuel_complete _ _ _ _ _ _ _ (by omega)⟩
  · conv_lhs => rw [fetchLoop]
    rw [dif_pos hofs, dif_neg hne]
  · simp only [tagFindMany, tagPage, List.length_map, List.length_take]
    omega

/-- Witness for C8: on `db1` with batch size 2 the single returned record
advances the offset by 1 (the actual count), not by the batch size 2. -/
theorem fetchLoop_advances_by_returned_witness :
    fetchLoop 2 db1 none [] 0 0 =
      (RunEvent.fetch 0 2 (tagFindMany db1 none [] 0 2) ::
        RunEvent.submit ((tagFindMany db1 none [] 0 2).map transformTag) 0 ::
        (fetchLoop 2 db1 none [] (0 + (tagFindMany db1 none [] 0 2).length) (0 + 1)).1,
       0 :: (fetchLoop 2 db1 none [] (0 + (tagFindMany db1 none [] 0 2).length) (0 + 1)).2) ∧
    (tagFindMany db1 none [] 0 2).length ≤ 2 ∧
    fetchLoopFuel (2 - 0 + 1) 2 db1 none [] 0 0 = some (fetchLoop 2 db1 none [] 0 0) :=
  fetchLoop_advances_by_returned 2 db1 none [] 0 0 (by decide) (by decide)

/-- Concrete evaluation of the loop with batch size 2 over the five-tag
database: a single page of two records is fetched and then the loop guard
`offset < batch` stops the loop. -/
theorem exDb5_loop2_eval : fetchLoop 2 exDb5 none [] 0 0 =
    ([RunEvent.fetch 0 2 (tagFindMany exDb5 none [] 0 2),
      RunEvent.submit ((tagFindMany exDb5 none [] 0 2).map transformTag) 0], [0]) :=
  fetchLoop_eq_of_fuel 3 2 exDb5 none [] 0 0 (by decide) (by decide)

/-- C1: evaluation of the code at the claim's own scenario (page size 2,
five eligible records) and at the configured batch size (100, two hundred
eligible records). In both cases the loop guard `offset < READ_BATCH_SIZE`
stops the loop after a single full page although the next page is
non-empty: the empty page is not the sole termination signal — the
claimed 3 pages (2, 2, 1) are never issued. -/
theorem fetchLoop_offset_cap_eval :
    (exDb5.tags.filter (tagQueryMatches none [])).length = 5 ∧
    ((fetchLoop 2 exDb5 none [] 0 0).1.countP isFetch) = 1 ∧
    (tagFindMany exDb5 none [] 0 2).length = 2 ∧
    tagFindMany exDb5 none [] 2 2 ≠ [] ∧
    ((fetchLoop READ_BATCH_SIZE db200 none [] 0 0).1.countP isFetch) = 1 ∧
    tagFindMany db200 none [] READ_BATCH_SIZE READ_BATCH_SIZE ≠ [] := by
  have h2 := exDb5_loop2_eval
  have h200 : fetchLoop READ_BATCH_SIZE db200 none [] 0 0 =
      ([RunEvent.fetch 0 READ_BATCH_SIZE (tagFindMany db200 none [] 0 READ_BATCH_SIZE),
        RunEvent.submit ((tagFindMany db200 none [] 0 READ_BATCH_SIZE).map transformTag) 0],
       [0]) :=
    fetchLoop_eq_of_fuel 101 READ_BATCH_SIZE db200 none [] 0 0 (by decide) (by decide)
  refine ⟨by decide, ?_, by decide, by decide, ?_, by decide⟩
  · rw [h2]; decide
  · rw [h200]; decide

/-- A listed tag whose only metric row is for the `Day` timeframe — it has
metric rows, but none for `AllTime`. -/
def dayOnlyTag : Tag :=
  ⟨2, "u", false, false, false, false, 1, 1, [⟨MetricTimeframe.Day, 3, 4, 5, 6, 7, 8⟩]⟩

/-- A listed tag with a `Day` row and an `AllTime` row. -/
def allTimeTag : Tag :=
  ⟨3, "v", false, false, false, false, 1, 1,
    [⟨MetricTimeframe.Day, 1, 1, 1, 1, 1, 1⟩, ⟨MetricTimeframe.AllTime, 7, 8, 9, 10, 11, 12⟩]⟩

/-- C4 counterexample: for a record with no `AllTime` metric row, every one
of the six metric fields of the transformed document is absent (`none`),
not present with a zero/empty default — the spread of the empty object
omits the fields. -/
theorem transformTag_no_default_metrics_cex :
    dayOnlyTag.metrics ≠ [] ∧
    (transformTag (selectTag dayOnlyTag)).metrics.postCount = none ∧
    (transformTag (selectTag dayOnlyTag)).metrics.articleCount = none ∧
    (transformTag (selectTag dayOnlyTag)).metrics.followerCount = none ∧
    (transformTag (selectTag dayOnlyTag)).metrics.modelCount = none ∧
    (transformTag (selectTag dayOnlyTag)).metrics.imageCount = none ∧
    (transformTag (selectTag dayOnlyTag)).metrics.hiddenCount = none := by
  decide

/-- C4 as amended: the transformation flattens the `AllTime`-scoped metric
rows by taking the first one — when such a row exists all six metric
fields are present with its values, and when no `AllTime` row exists the
document's metrics object is empty (all six fields omitted), rather than
defaulted. -/
theorem transformTag_flattens_first_alltime_row (t : Tag) :
    ((t.metrics.filter (fun m => m.timeframe == MetricTimeframe.AllTime)) = [] →
      (transformTag (selectTag t)).metrics = ⟨none, none, none, none, none, none⟩) ∧
    (∀ m rest,
      (t.metrics.filter (fun m2 => m2.timeframe == MetricTimeframe.AllTime)) = m :: rest →
      (transformTag (selectTag t)).metrics =
        ⟨some m.postCount, some m.articleCount, some m.followerCount,
         some m.modelCount, some m.imageCount, some m.hiddenCount⟩) := by
  constructor
  · intro h
    simp [transformTag, selectTag, h, spreadFirstMetric]
  · intro m rest h
    simp [transformTag, selectTag, h, spreadFirstMetric, selectMetric]

/-- Witness for the amended C4 at a tag whose `AllTime` row holds the
values 7..12. -/
theorem transformTag_flattens_first_alltime_row_witness :
    (transformTag (selectTag allTimeTag)).metrics =
      ⟨some 7, some 8, some 9, some 10, some 11, some 12⟩ :=
  (transformTag_flattens_first_alltime_row allTimeTag).2
    ⟨MetricTimeframe.AllTime, 7, 8, 9, 10, 11, 12⟩ [] (by decide)
